import Mathlib

/-!
Verification of the market-order execution engine.

Shallow embedding of the repository's core: the order data model
(`src/types/order.ts`), the mock DEX router (`src/services/dex/mockDexRouter.ts`),
the order store's update operation (`src/models/orderModel.ts`), the lifecycle
engine (`src/services/orderService.ts`), and the BullMQ-backed scheduler
(`src/services/queueService.ts`).

Conventions: decimal amounts are rationals; timestamps are naturals;
`Math.random()` draws are explicit rational parameters in `[0, 1)`;
a rejected promise / thrown error is `Except.error` carrying the error's
message string.
-/

namespace MarketOrderEngine

/-- Order lifecycle states, from the `OrderStatus` enum in `src/types/order.ts`. -/
inductive OrderStatus where
  | pending
  | routing
  | building
  | submitted
  | confirmed
  | failed
deriving DecidableEq, Repr

/-- Order type enum from `src/types/order.ts`. -/
inductive OrderType where
  | market
  | limit
  | sniper
deriving DecidableEq, Repr

/-- The persisted order row, from the `Order` interface in `src/types/order.ts`.
DEX provider identifiers are the enum's string values (`"raydium"`, `"meteora"`). -/
structure Order where
  id : String
  userId : String
  type : OrderType
  tokenIn : String
  tokenOut : String
  amountIn : ℚ
  amountOut : Option ℚ
  status : OrderStatus
  dexProvider : Option String
  txHash : Option String
  executedPrice : Option ℚ
  error : Option String
  retryCount : ℕ
  createdAt : ℕ
  updatedAt : ℕ
deriving DecidableEq, Repr

/-- A provider quote, from the `DexQuote` interface in `src/types/dex.ts`
(the purely timing-related `latency`/`estimatedGas` fields are not modelled). -/
structure DexQuote where
  provider : String
  price : ℚ
  amountOut : ℚ
  fee : ℚ
deriving DecidableEq, Repr

/-- Result of a swap execution, from the `SwapResult` interface in `src/types/dex.ts`. -/
structure SwapResult where
  txHash : String
  executedPrice : ℚ
  amountOut : ℚ
deriving DecidableEq, Repr

/-- The `basePrices` table of `MockDexRouter`, with the `|| 1` default of
`getBasePrice` folded in (every listed price is truthy). -/
def basePriceOf (token : String) : ℚ :=
  if token = "SOL" then 100
  else if token = "USDC" then 1
  else if token = "USDT" then 1
  else if token = "BONK" then 1 / 100000
  else 1

/-- `MockDexRouter.getBasePrice`: ratio of the output token's reference price
to the input token's. -/
def getBasePrice (tokenIn tokenOut : String) : ℚ :=
  basePriceOf tokenOut / basePriceOf tokenIn

/-- `MockDexRouter.getQuote`. `rand` is the `Math.random()` draw in `[0, 1)`
used for the price dispersion. The code branches on
`provider === DexProvider.RAYDIUM`; every other identifier takes the `else`
branch (Meteora economics: 97-103% dispersion, 0.2% fee). -/
def getQuote (provider tokenIn tokenOut : String) (amountIn rand : ℚ) : DexQuote :=
  let basePrice := getBasePrice tokenIn tokenOut
  let priceMultiplier : ℚ :=
    if provider = "raydium" then 98 / 100 + rand * (4 / 100)
    else 97 / 100 + rand * (6 / 100)
  let fee : ℚ := if provider = "raydium" then 3 / 1000 else 2 / 1000
  let price := basePrice * priceMultiplier
  { provider := provider
    price := price
    amountOut := amountIn * price * (1 - fee)
    fee := fee }

/-- The provider list of `MockDexRouter.getAllQuotes`. -/
def providers : List String := ["raydium", "meteora"]

/-- `Promise.all` over per-provider quote calls: resolves with one quote per
provider, in provider order, and rejects as soon as any single call rejects.
`fetch` is the outcome of `this.getQuote` for each provider. -/
def traverseQuotes (fetch : String → Except String DexQuote) :
    List String → Except String (List DexQuote)
  | [] => .ok []
  | p :: ps =>
    match fetch p with
    | .error e => .error e
    | .ok q =>
      match traverseQuotes fetch ps with
      | .error e => .error e
      | .ok qs => .ok (q :: qs)

/-- `MockDexRouter.getAllQuotes`, parametrised by the per-provider outcome. -/
def getAllQuotesWith (fetch : String → Except String DexQuote) :
    Except String (List DexQuote) :=
  traverseQuotes fetch providers

/-- `MockDexRouter.getAllQuotes` with the mock `getQuote` (which always
resolves); `randR`/`randM` are the two dispersion draws. -/
def getAllQuotes (tokenIn tokenOut : String) (amountIn randR randM : ℚ) :
    Except String (List DexQuote) :=
  getAllQuotesWith fun p =>
    .ok (getQuote p tokenIn tokenOut amountIn (if p = "raydium" then randR else randM))

/-- The element shape of `effectiveAmounts` inside `selectBestDex`. -/
structure EffectiveQuote where
  provider : String
  amountOut : ℚ
  price : ℚ
deriving DecidableEq, Repr

/-- One step of the stable descending insertion used to model
`effectiveAmounts.sort((a, b) => b.amountOut - a.amountOut)`: the inserted
element goes in front of the first element it compares greater-or-equal to,
so elements already in the list keep their relative order. -/
def orderedInsertDesc (q : EffectiveQuote) : List EffectiveQuote → List EffectiveQuote
  | [] => [q]
  | r :: rs =>
    if r.amountOut ≤ q.amountOut then q :: r :: rs
    else r :: orderedInsertDesc q rs

/-- Stable descending-by-`amountOut` sort, modelling the ECMAScript
`Array.prototype.sort` call in `selectBestDex` (JS sort is stable and the
comparator `(a, b) => b.amountOut - a.amountOut` orders by `amountOut`
descending). Each element is inserted into the sorted remainder, and it
precedes every element it ties with, which are all later in input order. -/
def sortByAmountOutDesc : List EffectiveQuote → List EffectiveQuote
  | [] => []
  | q :: qs => orderedInsertDesc q (sortByAmountOutDesc qs)

/-- `MockDexRouter.selectBestDex`: throws `'No quotes available'` on an empty
input, otherwise sorts the projected quotes descending by `amountOut` and
returns the first element's provider. -/
def selectBestDex (quotes : List DexQuote) : Except String String :=
  if quotes.isEmpty then .error "No quotes available"
  else
    let effectiveAmounts := quotes.map fun q =>
      EffectiveQuote.mk q.provider q.amountOut q.price
    match sortByAmountOutDesc effectiveAmounts with
    | [] => .error "No quotes available"
    | best :: _ => .ok best.provider

/-- `MockDexRouter.executeSwap`: re-derives a quote for the winning provider
(dispersion draw `randQuote`), multiplies its `amountOut` by the slippage
factor `0.995 + Math.random() * 0.01` (draw `randSlip`), and derives
`executedPrice = finalAmountOut / order.amountIn`. `txHash` stands for the
string produced by `generateMockTxHash`'s random draws. -/
def executeSwap (provider : String) (order : Order) (randQuote randSlip : ℚ)
    (txHash : String) : SwapResult :=
  let quote := getQuote provider order.tokenIn order.tokenOut order.amountIn randQuote
  let slippage : ℚ := 995 / 1000 + randSlip * (1 / 100)
  let finalAmountOut := quote.amountOut * slippage
  { txHash := txHash
    executedPrice := finalAmountOut / order.amountIn
    amountOut := finalAmountOut }

/-- The optional `updates` argument of `OrderModel.updateStatus` /
`OrderService.updateOrderStatus` (`none` = the property is absent). -/
structure StatusUpdates where
  dexProvider : Option String := none
  txHash : Option String := none
  executedPrice : Option ℚ := none
  amountOut : Option ℚ := none
  error : Option String := none
  retryCount : Option ℕ := none
deriving DecidableEq, Repr

/-- JavaScript truthiness of an optional string: absent and the empty string
are falsy, every other string is truthy. -/
def truthyStr : Option String → Bool
  | some s => s ≠ ""
  | none => false

/-- `OrderModel.updateStatus` on the order's row: always writes `status` and
`updated_at`; writes `dex_provider`, `tx_hash` and `error` only when the
supplied value is truthy (`if (updates?.field)`); writes `executed_price`,
`amount_out` and `retry_count` whenever the value is defined
(`!== undefined`), including zero. Every other column is untouched. -/
def updateStatus (o : Order) (status : OrderStatus) (u : StatusUpdates) (now : ℕ) :
    Order :=
  { o with
    status := status
    updatedAt := now
    dexProvider := if truthyStr u.dexProvider then u.dexProvider else o.dexProvider
    txHash := if truthyStr u.txHash then u.txHash else o.txHash
    executedPrice :=
      match u.executedPrice with
      | some v => some v
      | none => o.executedPrice
    amountOut :=
      match u.amountOut with
      | some v => some v
      | none => o.amountOut
    error := if truthyStr u.error then u.error else o.error
    retryCount :=
      match u.retryCount with
      | some v => v
      | none => o.retryCount }

/-- The status update pushed to the per-order WebSocket callback, from the
`OrderStatusUpdate` shape built in `OrderService.updateOrderStatus`. -/
structure OrderStatusUpdate where
  orderId : String
  status : OrderStatus
  dexProvider : Option String
  txHash : Option String
  executedPrice : Option ℚ
  error : Option String
  message : String
deriving DecidableEq, Repr

/-- `OrderService.getStatusMessage`. -/
def getStatusMessage : OrderStatus → String
  | .pending => "Order received and queued"
  | .routing => "Comparing DEX prices"
  | .building => "Creating transaction"
  | .submitted => "Transaction sent to network"
  | .confirmed => "Transaction confirmed"
  | .failed => "Order execution failed"

/-- `OrderService.updateOrderStatus`: persist through the store, then emit the
update built from the persisted row. Returns the persisted row and the single
emitted update (one persist-and-emit pair). -/
def updateOrderStatus (o : Order) (status : OrderStatus) (u : StatusUpdates)
    (now : ℕ) : Order × OrderStatusUpdate :=
  let o2 := updateStatus o status u now
  (o2,
    { orderId := o2.id
      status := o2.status
      dexProvider := o2.dexProvider
      txHash := o2.txHash
      executedPrice := o2.executedPrice
      error := o2.error
      message := getStatusMessage status })

/-- The `IDexRouter` capability as the lifecycle engine consumes it
(`src/types/dex.ts`): each method's outcome for this run. The mock router is
one instance (`mockRouter` below); a failing venue is another. -/
structure DexRouterM where
  getAllQuotes : String → String → ℚ → Except String (List DexQuote)
  selectBestDex : List DexQuote → Except String String
  executeSwap : String → Order → Except String SwapResult

/-- The mock router as a `DexRouterM` instance: quote fetches always resolve,
`executeSwap` always resolves; the rational arguments are the random draws. -/
def mockRouter (randR randM randQuote randSlip : ℚ) (txh : String) : DexRouterM :=
  { getAllQuotes := fun tIn tOut aIn => getAllQuotes tIn tOut aIn randR randM
    selectBestDex := selectBestDex
    executeSwap := fun p o => .ok (executeSwap p o randQuote randSlip txh) }

/-- The store as the engine sees it for one order id: the order's row, if any.
Claims here concern a single order; the SQL `WHERE id = $1` touches only that
row. -/
def findById (store : Option Order) (orderId : String) : Option Order :=
  store.bind fun o => if o.id = orderId then some o else none

/-- `error.message || 'Unknown error occurred'` from `processOrder`'s catch. -/
def errMessage (e : String) : String :=
  if e = "" then "Unknown error occurred" else e

/-- The observable outcome of one `processOrder` invocation: the order's row
afterwards, the emitted status updates in order, and the returned promise
(`.error` = the re-thrown exception's message). -/
structure ProcResult where
  store : Option Order
  emitted : List OrderStatusUpdate
  result : Except String Unit
deriving Repr

/-- `OrderService.processOrder`, the lifecycle engine's `run`:
load the order (absent id throws without any update); then walk
ROUTING → BUILDING → SUBMITTED → CONFIRMED, persisting and emitting at each
step; any failure of a venue call transitions to FAILED with the error's
message and re-throws. There is no check of the loaded order's current
status. `executeSwap` receives the row as loaded at entry. -/
def processOrder (router : DexRouterM) (store : Option Order) (orderId : String)
    (now : ℕ) : ProcResult :=
  match findById store orderId with
  | none =>
    { store := store
      emitted := []
      result := .error ("Order not found: " ++ orderId) }
  | some order =>
    let (o1, e1) := updateOrderStatus order .routing {} now
    match router.getAllQuotes order.tokenIn order.tokenOut order.amountIn with
    | .error err =>
      let (oF, eF) := updateOrderStatus o1 .failed { error := some (errMessage err) } now
      { store := some oF, emitted := [e1, eF], result := .error err }
    | .ok quotes =>
      match router.selectBestDex quotes with
      | .error err =>
        let (oF, eF) := updateOrderStatus o1 .failed { error := some (errMessage err) } now
        { store := some oF, emitted := [e1, eF], result := .error err }
      | .ok bestDex =>
        let (o2, e2) := updateOrderStatus o1 .building { dexProvider := some bestDex } now
        let (o3, e3) := updateOrderStatus o2 .submitted { dexProvider := some bestDex } now
        match router.executeSwap bestDex order with
        | .error err =>
          let (oF, eF) := updateOrderStatus o3 .failed { error := some (errMessage err) } now
          { store := some oF, emitted := [e1, e2, e3, eF], result := .error err }
        | .ok swap =>
          let (o4, e4) := updateOrderStatus o3 .confirmed
            { dexProvider := some bestDex
              txHash := some swap.txHash
              executedPrice := some swap.executedPrice
              amountOut := some swap.amountOut } now
          { store := some o4, emitted := [e1, e2, e3, e4], result := .ok () }

/-- Modelled from the spec: the scheduler's per-job retry loop. BullMQ is
configured with `attempts = maxRetryAttempts` and the worker body only calls
`processOrder` and re-throws on failure, so the library runs the job until it
succeeds or `maxAttempts` attempts have failed. Returns the final store and
the number of engine invocations made. The loop itself never touches the
store except through `processOrder`. -/
def runJobAux (router : DexRouterM) (orderId : String) (now : ℕ) :
    ℕ → Option Order → ℕ → Option Order × ℕ
  | 0, s, inv => (s, inv)
  | Nat.succ n, s, inv =>
    let r := processOrder router s orderId now
    match r.result with
    | .ok _ => (r.store, inv + 1)
    | .error _ => runJobAux router orderId now n r.store (inv + 1)

/-- Modelled from the spec: run one admitted job with at most `maxAttempts`
engine invocations (BullMQ `attempts` option; backoff delays are pure timing
and are not modelled). -/
def runJob (router : DexRouterM) (maxAttempts : ℕ) (store : Option Order)
    (orderId : String) (now : ℕ) : Option Order × ℕ :=
  runJobAux router orderId now maxAttempts store 0

/-- The store after exactly `k` consecutive engine invocations and nothing
else. -/
def engineIter (router : DexRouterM) (orderId : String) (now : ℕ) :
    ℕ → Option Order → Option Order
  | 0, s => s
  | Nat.succ k, s => engineIter router orderId now k (processOrder router s orderId now).store

/-- Modelled from the spec: the scheduler's outstanding-job set, keyed by
order id (`jobId: orderId` in `QueueService.addOrder`). -/
structure QueueState where
  jobs : List String
deriving DecidableEq, Repr

/-- Modelled from the spec: `QueueService.addOrder` enqueues under the job key
`orderId`; BullMQ ignores an add whose `jobId` is already present, so a
submission while a job for the same id is outstanding is a no-op. -/
def addOrder (q : QueueState) (orderId : String) : QueueState :=
  if orderId ∈ q.jobs then q else { jobs := q.jobs ++ [orderId] }

/-- Modelled from the spec: the worker drains the admitted jobs, invoking
`processOrder` exactly once per job (the success case, no retries); the
second component counts the invocations made for `orderId`. -/
def runJobsCount (router : DexRouterM) (now : ℕ) (orderId : String) :
    List String → Option Order → Option Order × ℕ
  | [], s => (s, 0)
  | j :: rest, s =>
    let r := processOrder router s j now
    let (s2, n) := runJobsCount router now orderId rest r.store
    (s2, if j = orderId then n + 1 else n)

/-- Projection used inside `selectBestDex` to build `effectiveAmounts`. -/
def toEffective (q : DexQuote) : EffectiveQuote :=
  EffectiveQuote.mk q.provider q.amountOut q.price

/-- Running first-maximum over `EffectiveQuote`s: the current best is replaced
only by a strictly larger `amountOut`, so on ties the earlier element is kept. -/
def fmAux (best : EffectiveQuote) : List EffectiveQuote → EffectiveQuote
  | [] => best
  | q :: qs => fmAux (if best.amountOut < q.amountOut then q else best) qs

/-- Running first-maximum over `DexQuote`s (same scan as `fmAux`). -/
def fmQ (best : DexQuote) : List DexQuote → DexQuote
  | [] => best
  | q :: qs => fmQ (if best.amountOut < q.amountOut then q else best) qs

/-- Spec-side definition, following the spec's words for `selectBestDex`:
the first quote of the sequence whose `amountOut` is maximal (ties broken by
input order), or `none` on the empty sequence. Compared with the
implementation's sort-then-head in the `selectBestDex` theorem. -/
def firstMaxQuote (quotes : List DexQuote) : Option DexQuote :=
  quotes.find? fun q => quotes.all fun r => r.amountOut ≤ q.amountOut

/-- A freshly created PENDING order (`OrderService.createOrder` shape). -/
def sampleOrder : Order :=
  { id := "order-1"
    userId := "user-1"
    type := .market
    tokenIn := "SOL"
    tokenOut := "USDC"
    amountIn := 1
    amountOut := none
    status := .pending
    dexProvider := none
    txHash := none
    executedPrice := none
    error := none
    retryCount := 0
    createdAt := 0
    updatedAt := 0 }

/-- An order already in the terminal CONFIRMED state, fields as left by a
completed run. -/
def confirmedOrder : Order :=
  { sampleOrder with
    status := .confirmed
    dexProvider := some "raydium"
    txHash := some "OLDTX"
    executedPrice := some (1 / 100)
    amountOut := some (1 / 100) }

/-- A router whose venue calls always fail (a provider forced to always
fail). -/
def failRouter : DexRouterM :=
  { getAllQuotes := fun _ _ _ => .error "DEX unavailable"
    selectBestDex := selectBestDex
    executeSwap := fun _ _ => .error "DEX unavailable" }

/-- Whether a promise resolved (`Except.ok`). -/
def isOk {α : Type} : Except String α → Bool
  | .ok _ => true
  | .error _ => false

/-- The mock per-provider quote outcome: every provider's call resolves. -/
def mockFetch (tIn tOut : String) (aIn r : ℚ) : String → Except String DexQuote :=
  fun p => .ok (getQuote p tIn tOut aIn r)

/-! ## Theorems -/

/-- C1 (counterexample): running the engine on an order whose persisted status
is already terminal (CONFIRMED) is not a no-op: with the mock router it emits
status updates and overwrites stored fields (the txHash changes from the
stored `"OLDTX"` to the new swap's `"NEWTX"`). -/
theorem processOrder_on_confirmed_order_not_noop :
    (processOrder (mockRouter 0 0 0 0 "NEWTX") (some confirmedOrder) "order-1" 7).emitted ≠ []
    ∧ (processOrder (mockRouter 0 0 0 0 "NEWTX") (some confirmedOrder) "order-1" 7).store.map
        Order.txHash = some (some "NEWTX")
    ∧ confirmedOrder.txHash = some "OLDTX" := by
  refine ⟨?_, ?_, rfl⟩ <;>
    norm_num [processOrder, findById, mockRouter, getAllQuotes, getAllQuotesWith, traverseQuotes,
      providers, getQuote, getBasePrice, basePriceOf, selectBestDex, sortByAmountOutDesc,
      orderedInsertDesc, updateOrderStatus, updateStatus, truthyStr, errMessage, executeSwap,
      confirmedOrder, sampleOrder,
      show ("USDC" : String) ≠ "SOL" from by decide,
      show ("meteora" : String) ≠ "raydium" from by decide,
      show ("raydium" : String) ≠ "" from by decide,
      show ("NEWTX" : String) ≠ "" from by decide]
  exact List.cons_ne_nil _ _

/-- C1 (amended): `processOrder` contains no terminal-status short-circuit:
its entire behaviour is independent of the loaded order's stored status, so a
CONFIRMED or FAILED order is re-processed through the full pipeline exactly
as a PENDING one. -/
theorem processOrder_ignores_stored_status (r1 r2 r3 rs : ℚ) (txh : String) (o : Order)
    (now : ℕ) (newStatus : OrderStatus) :
    processOrder (mockRouter r1 r2 r3 rs txh) (some o) o.id now
      = processOrder (mockRouter r1 r2 r3 rs txh) (some { o with status := newStatus }) o.id now := by
  have h : findById (some o) o.id = some o := by simp [findById]
  have h2 : findById (some { o with status := newStatus }) o.id
      = some { o with status := newStatus } := by simp [findById]
  simp [processOrder, h, h2, mockRouter, getAllQuotes, getAllQuotesWith, traverseQuotes,
    providers, getQuote, getBasePrice, executeSwap, updateOrderStatus, updateStatus,
    truthyStr, errMessage]

/-- C4: with max attempts 3 and a venue that always fails, the scheduler
invokes the engine exactly 3 times and the order ends FAILED with the error
recorded — but its persisted `retryCount` is still 0: nothing in the code
ever writes `retryCount` after creation, so it does not reflect the 3
attempts made. -/
theorem runJob_three_failing_attempts_retryCount_zero :
    (runJob failRouter 3 (some sampleOrder) "order-1" 5).2 = 3
    ∧ (runJob failRouter 3 (some sampleOrder) "order-1" 5).1.map Order.status
        = some OrderStatus.failed
    ∧ (runJob failRouter 3 (some sampleOrder) "order-1" 5).1.map Order.error
        = some (some "DEX unavailable")
    ∧ (runJob failRouter 3 (some sampleOrder) "order-1" 5).1.map Order.retryCount = some 0 := by
  refine ⟨?_, ?_, ?_, ?_⟩ <;> decide

/-- C8: the execution-time slippage factor is `0.995 + rand * 0.01`, which can
adjust `amountOut` favourably: at `rand = 0.9` the final `amountOut` is
100.4% of the re-derived quote's `amountOut` — strictly above it, and not
within the claimed 98.5%–99.5% band. The `executedPrice = amountOut / amountIn`
relation does hold. -/
theorem executeSwap_slippage_outside_claimed_band :
    (executeSwap "raydium" sampleOrder (1 / 2) (9 / 10) "TX").amountOut
      = (getQuote "raydium" "SOL" "USDC" 1 (1 / 2)).amountOut * (1004 / 1000)
    ∧ (getQuote "raydium" "SOL" "USDC" 1 (1 / 2)).amountOut
      < (executeSwap "raydium" sampleOrder (1 / 2) (9 / 10) "TX").amountOut
    ∧ ¬((executeSwap "raydium" sampleOrder (1 / 2) (9 / 10) "TX").amountOut
        ≤ (995 / 1000) * (getQuote "raydium" "SOL" "USDC" 1 (1 / 2)).amountOut)
    ∧ (executeSwap "raydium" sampleOrder (1 / 2) (9 / 10) "TX").executedPrice
      = (executeSwap "raydium" sampleOrder (1 / 2) (9 / 10) "TX").amountOut
          / sampleOrder.amountIn := by
  refine ⟨?_, ?_, ?_, ?_⟩ <;>
    norm_num [executeSwap, getQuote, getBasePrice, basePriceOf, sampleOrder,
      show ("USDC" : String) ≠ "SOL" from by decide]

/-- C9 (counterexample): invoked with the unregistered provider identifier
`"jupiter"`, `getQuote` does not fail — it returns a quote (with Meteora's
0.2% fee and dispersion), contradicting the claimed UnknownProvider failure. -/
theorem getQuote_unknown_provider_returns_quote :
    (getQuote "jupiter" "SOL" "USDC" 1 0).provider = "jupiter"
    ∧ (getQuote "jupiter" "SOL" "USDC" 1 0).fee = 2 / 1000
    ∧ (getQuote "jupiter" "SOL" "USDC" 1 0).amountOut = 97 / 10000 * (1 - 2 / 1000) := by
  refine ⟨rfl, ?_, ?_⟩ <;>
    norm_num [getQuote, getBasePrice, basePriceOf,
      show ("jupiter" : String) ≠ "raydium" from by decide,
      show ("USDC" : String) ≠ "SOL" from by decide]

/-- C9 (amended): `getQuote` performs no provider-registration check and never
fails: any provider identifier other than `"raydium"` — registered or not —
takes the `else` branch and is priced with Meteora's economics (97–103%
dispersion, 0.2% fee), returning a quote. -/
theorem getQuote_non_raydium_uses_meteora_economics (p tIn tOut : String) (aIn rand : ℚ)
    (hp : p ≠ "raydium") :
    getQuote p tIn tOut aIn rand =
      { provider := p
        price := getBasePrice tIn tOut * (97 / 100 + rand * (6 / 100))
        amountOut := aIn * (getBasePrice tIn tOut * (97 / 100 + rand * (6 / 100))) * (1 - 2 / 1000)
        fee := 2 / 1000 } := by
  simp [getQuote, hp]

/-- Witness for the amended C9 theorem at the concrete unregistered provider
`"jupiter"`. -/
theorem getQuote_non_raydium_uses_meteora_economics_witness :
    getQuote "jupiter" "SOL" "USDC" 2 (1 / 4) =
      { provider := "jupiter"
        price := getBasePrice "SOL" "USDC" * (97 / 100 + (1 / 4) * (6 / 100))
        amountOut := 2 * (getBasePrice "SOL" "USDC" * (97 / 100 + (1 / 4) * (6 / 100)))
            * (1 - 2 / 1000)
        fee := 2 / 1000 } :=
  getQuote_non_raydium_uses_meteora_economics "jupiter" "SOL" "USDC" 2 (1 / 4) (by decide)

/-- C10: `OrderModel.updateStatus` writes only `status`, `updatedAt` and the
supplied update fields; absent fields are unchanged; `dexProvider`, `txHash`
and `error` are also unchanged when the supplied value is falsy (empty
string), while `executedPrice`, `amountOut` and `retryCount` are written
whenever defined, including zero. The identity, token, amount and creation
fields are never modified. -/
theorem updateStatus_frame (o : Order) (st : OrderStatus) (u : StatusUpdates) (now : ℕ) :
    (updateStatus o st u now).status = st
    ∧ (updateStatus o st u now).updatedAt = now
    ∧ (updateStatus o st u now).id = o.id
    ∧ (updateStatus o st u now).userId = o.userId
    ∧ (updateStatus o st u now).type = o.type
    ∧ (updateStatus o st u now).tokenIn = o.tokenIn
    ∧ (updateStatus o st u now).tokenOut = o.tokenOut
    ∧ (updateStatus o st u now).amountIn = o.amountIn
    ∧ (updateStatus o st u now).createdAt = o.createdAt
    ∧ (truthyStr u.dexProvider = false → (updateStatus o st u now).dexProvider = o.dexProvider)
    ∧ (∀ v, u.dexProvider = some v → v ≠ "" → (updateStatus o st u now).dexProvider = some v)
    ∧ (truthyStr u.txHash = false → (updateStatus o st u now).txHash = o.txHash)
    ∧ (∀ v, u.txHash = some v → v ≠ "" → (updateStatus o st u now).txHash = some v)
    ∧ (truthyStr u.error = false → (updateStatus o st u now).error = o.error)
    ∧ (∀ v, u.error = some v → v ≠ "" → (updateStatus o st u now).error = some v)
    ∧ (u.executedPrice = none → (updateStatus o st u now).executedPrice = o.executedPrice)
    ∧ (∀ v, u.executedPrice = some v → (updateStatus o st u now).executedPrice = some v)
    ∧ (u.amountOut = none → (updateStatus o st u now).amountOut = o.amountOut)
    ∧ (∀ v, u.amountOut = some v → (updateStatus o st u now).amountOut = some v)
    ∧ (u.retryCount = none → (updateStatus o st u now).retryCount = o.retryCount)
    ∧ (∀ v, u.retryCount = some v → (updateStatus o st u now).retryCount = v) := by
  refine ⟨rfl, rfl, rfl, rfl, rfl, rfl, rfl, rfl, rfl,
    ?_, ?_, ?_, ?_, ?_, ?_, ?_, ?_, ?_, ?_, ?_, ?_⟩
  · intro h; simp [updateStatus, h]
  · intro v hv hne; simp [updateStatus, truthyStr, hv, hne]
  · intro h; simp [updateStatus, h]
  · intro v hv hne; simp [updateStatus, truthyStr, hv, hne]
  · intro h; simp [updateStatus, h]
  · intro v hv hne; simp [updateStatus, truthyStr, hv, hne]
  · intro h; simp [updateStatus, h]
  · intro v hv; simp [updateStatus, hv]
  · intro h; simp [updateStatus, h]
  · intro v hv; simp [updateStatus, hv]
  · intro h; simp [updateStatus, h]
  · intro v hv; simp [updateStatus, hv]

/-- Witness for `updateStatus_frame`: a falsy `dexProvider` and `error` are
not persisted, while a zero `executedPrice` and a `retryCount` of 5 are. -/
theorem updateStatus_frame_witness :
    (updateStatus sampleOrder .failed
        { dexProvider := some "", error := some "", executedPrice := some 0,
          retryCount := some 5 } 9).dexProvider = sampleOrder.dexProvider
    ∧ (updateStatus sampleOrder .failed
        { dexProvider := some "", error := some "", executedPrice := some 0,
          retryCount := some 5 } 9).error = sampleOrder.error
    ∧ (updateStatus sampleOrder .failed
        { dexProvider := some "", error := some "", executedPrice := some 0,
          retryCount := some 5 } 9).executedPrice = some 0
    ∧ (updateStatus sampleOrder .failed
        { dexProvider := some "", error := some "", executedPrice := some 0,
          retryCount := some 5 } 9).retryCount = 5
    ∧ (updateStatus sampleOrder .failed
        { dexProvider := some "", error := some "", executedPrice := some 0,
          retryCount := some 5 } 9).status = .failed := by
  obtain ⟨h1, -, -, -, -, -, -, -, -, h10, -, -, -, h14, -, -, h17, -, -, -, h21⟩ :=
    updateStatus_frame sampleOrder .failed
      { dexProvider := some "", error := some "", executedPrice := some 0, retryCount := some 5 } 9
  exact ⟨h10 (by decide), h14 (by decide), h17 0 rfl, h21 5 rfl, h1⟩

/-- C2: on an existing order whose venue calls all succeed, one `processOrder`
invocation persists and emits exactly ROUTING, BUILDING, SUBMITTED, CONFIRMED
in that order (one persist-and-emit pair per transition), records the chosen
provider from BUILDING on, records txHash / executedPrice / amountOut at
CONFIRMED, leaves the identity, amountIn and retryCount fields unchanged, and
returns normally. -/
theorem processOrder_success_path (router : DexRouterM) (o : Order) (now : ℕ)
    (qs : List DexQuote) (p : String) (sw : SwapResult)
    (hq : router.getAllQuotes o.tokenIn o.tokenOut o.amountIn = .ok qs)
    (hs : router.selectBestDex qs = .ok p) (hp : p ≠ "")
    (hsw : router.executeSwap p o = .ok sw) (ht : sw.txHash ≠ "") :
    (processOrder router (some o) o.id now).result = .ok ()
    ∧ (processOrder router (some o) o.id now).emitted.map OrderStatusUpdate.status
        = [.routing, .building, .submitted, .confirmed]
    ∧ (processOrder router (some o) o.id now).store.map Order.status = some .confirmed
    ∧ (processOrder router (some o) o.id now).store.map Order.dexProvider = some (some p)
    ∧ (processOrder router (some o) o.id now).store.map Order.txHash = some (some sw.txHash)
    ∧ (processOrder router (some o) o.id now).store.map Order.executedPrice
        = some (some sw.executedPrice)
    ∧ (processOrder router (some o) o.id now).store.map Order.amountOut = some (some sw.amountOut)
    ∧ (processOrder router (some o) o.id now).store.map Order.id = some o.id
    ∧ (processOrder router (some o) o.id now).store.map Order.amountIn = some o.amountIn
    ∧ (processOrder router (some o) o.id now).store.map Order.retryCount = some o.retryCount := by
  have h : findById (some o) o.id = some o := by simp [findById]
  simp [processOrder, h, hq, hs, hsw, updateOrderStatus, updateStatus, truthyStr, hp, ht]

/-- Witness for `processOrder_success_path` at the mock router on the sample
order (all draws 0, swap transaction hash `"TX1"`). -/
theorem processOrder_success_path_witness :
    (processOrder (mockRouter 0 0 0 0 "TX1") (some sampleOrder) sampleOrder.id 3).result = .ok ()
    ∧ (processOrder (mockRouter 0 0 0 0 "TX1") (some sampleOrder) sampleOrder.id 3).emitted.map
        OrderStatusUpdate.status = [.routing, .building, .submitted, .confirmed]
    ∧ (processOrder (mockRouter 0 0 0 0 "TX1") (some sampleOrder) sampleOrder.id 3).store.map
        Order.dexProvider = some (some "raydium")
    ∧ (processOrder (mockRouter 0 0 0 0 "TX1") (some sampleOrder) sampleOrder.id 3).store.map
        Order.txHash = some (some "TX1") := by
  obtain ⟨h1, h2, -, h4, h5, -⟩ :=
    processOrder_success_path (mockRouter 0 0 0 0 "TX1") sampleOrder 3
      [getQuote "raydium" "SOL" "USDC" 1 0, getQuote "meteora" "SOL" "USDC" 1 0] "raydium"
      (executeSwap "raydium" sampleOrder 0 0 "TX1")
      rfl
      (by norm_num [mockRouter, selectBestDex, sortByAmountOutDesc, orderedInsertDesc, getQuote,
        getBasePrice, basePriceOf, show ("USDC" : String) ≠ "SOL" from by decide,
        show ("meteora" : String) ≠ "raydium" from by decide])
      (by decide) rfl (by decide)
  exact ⟨h1, h2, h4, h5⟩

/-- The scheduler only re-invokes the engine: after any run of the per-job
retry loop, the store is exactly the result of `k` plain engine invocations
for some `k` at most the attempt cap, and `k` is the invocation count. -/
theorem runJobAux_store_from_engine (router : DexRouterM) (orderId : String) (now : ℕ) :
    ∀ n s i, ∃ k ≤ n, runJobAux router orderId now n s i
      = (engineIter router orderId now k s, i + k) := by
  intro n
  induction n with
  | zero => intro s i; exact ⟨0, Nat.le_refl 0, by simp [runJobAux, engineIter]⟩
  | succ n ih =>
    intro s i
    cases hr : (processOrder router s orderId now).result with
    | ok u =>
      refine ⟨1, by omega, ?_⟩
      simp [runJobAux, hr, engineIter]
    | error e =>
      obtain ⟨k, hk, heq⟩ := ih (processOrder router s orderId now).store (i + 1)
      refine ⟨k + 1, by omega, ?_⟩
      rw [show runJobAux router orderId now (n + 1) s i
          = runJobAux router orderId now n (processOrder router s orderId now).store (i + 1)
        from by simp [runJobAux, hr], heq]
      simp [engineIter]
      omega

/-- C3: whichever venue call fails — the quote fan-out, the best-venue
selection, or the swap execution — `processOrder` persists the order as
FAILED with the failure's message in the `error` field and then propagates
the exception; and the scheduler never mutates the store itself: its final
store is exactly the result of some number (at most the attempt cap) of
engine invocations. -/
theorem processOrder_failure_persists_failed (router : DexRouterM) (o : Order)
    (now : ℕ) (e : String) (he : e ≠ "") :
    (router.getAllQuotes o.tokenIn o.tokenOut o.amountIn = .error e →
      (processOrder router (some o) o.id now).result = .error e
      ∧ (processOrder router (some o) o.id now).store.map Order.status = some .failed
      ∧ (processOrder router (some o) o.id now).store.map Order.error = some (some e))
    ∧ (∀ qs, router.getAllQuotes o.tokenIn o.tokenOut o.amountIn = .ok qs →
        router.selectBestDex qs = .error e →
        (processOrder router (some o) o.id now).result = .error e
        ∧ (processOrder router (some o) o.id now).store.map Order.status = some .failed
        ∧ (processOrder router (some o) o.id now).store.map Order.error = some (some e))
    ∧ (∀ qs p, router.getAllQuotes o.tokenIn o.tokenOut o.amountIn = .ok qs →
        router.selectBestDex qs = .ok p →
        router.executeSwap p o = .error e →
        (processOrder router (some o) o.id now).result = .error e
        ∧ (processOrder router (some o) o.id now).store.map Order.status = some .failed
        ∧ (processOrder router (some o) o.id now).store.map Order.error = some (some e))
    ∧ (∀ maxAttempts s, ∃ k ≤ maxAttempts,
        runJob router maxAttempts s o.id now = (engineIter router o.id now k s, k)) := by
  have h : findById (some o) o.id = some o := by simp [findById]
  refine ⟨?_, ?_, ?_, ?_⟩
  · intro hq
    simp [processOrder, h, hq, updateOrderStatus, updateStatus, truthyStr, errMessage, he]
  · intro qs hq hsel
    simp [processOrder, h, hq, hsel, updateOrderStatus, updateStatus, truthyStr, errMessage, he]
  · intro qs p hq hsel hsw
    simp [processOrder, h, hq, hsel, hsw, updateOrderStatus, updateStatus, truthyStr,
      errMessage, he]
  · intro maxAttempts s
    obtain ⟨k, hk, heq⟩ := runJobAux_store_from_engine router o.id now maxAttempts s 0
    refine ⟨k, hk, ?_⟩
    rw [runJob, heq]
    norm_num

/-- Witness for `processOrder_failure_persists_failed` at the always-failing
venue on the sample order, including the engine-only scheduler conjunct at
attempt cap 2. -/
theorem processOrder_failure_persists_failed_witness :
    ((processOrder failRouter (some sampleOrder) sampleOrder.id 5).result
        = .error "DEX unavailable"
      ∧ (processOrder failRouter (some sampleOrder) sampleOrder.id 5).store.map Order.status
        = some .failed
      ∧ (processOrder failRouter (some sampleOrder) sampleOrder.id 5).store.map Order.error
        = some (some "DEX unavailable"))
    ∧ ∃ k ≤ 2, runJob failRouter 2 (some sampleOrder) sampleOrder.id 5
        = (engineIter failRouter sampleOrder.id 5 k (some sampleOrder), k) := by
  obtain ⟨hfail, -, -, hiter⟩ :=
    processOrder_failure_persists_failed failRouter sampleOrder 5 "DEX unavailable" (by decide)
  exact ⟨hfail rfl, hiter 2 (some sampleOrder)⟩

/-- The worker makes exactly one engine invocation per admitted job for a
given id: the invocation count for `orderId` is its job count. -/
theorem runJobsCount_snd (router : DexRouterM) (now : ℕ) (orderId : String) :
    ∀ (jobs : List String) (s : Option Order),
      (runJobsCount router now orderId jobs s).2 = jobs.count orderId := by
  intro jobs
  induction jobs with
  | nil => intro s; simp [runJobsCount]
  | cons j rest ih =>
    intro s
    by_cases hj : j = orderId <;>
      simp [runJobsCount, ih, hj, List.count_cons]

/-- C5: submitting an order id a second time while a job for it is still
outstanding is a no-op (the queue state is unchanged), and draining the queue
after the two submissions invokes the lifecycle engine exactly once for that
id. -/
theorem addOrder_second_submission_noop (q : QueueState) (orderId : String)
    (h : orderId ∉ q.jobs) :
    addOrder (addOrder q orderId) orderId = addOrder q orderId
    ∧ ∀ router s now,
        (runJobsCount router now orderId (addOrder (addOrder q orderId) orderId).jobs s).2 = 1 := by
  have h1 : addOrder q orderId = { jobs := q.jobs ++ [orderId] } := by simp [addOrder, h]
  have h2 : addOrder (addOrder q orderId) orderId = addOrder q orderId := by
    rw [h1]; simp [addOrder]
  refine ⟨h2, ?_⟩
  intro router s now
  rw [h2, h1, runJobsCount_snd]
  simp [List.count_append, List.count_eq_zero.mpr h]

/-- Witness for `addOrder_second_submission_noop`: two submissions of
`"order-1"` to the empty queue leave one job and one engine invocation. -/
theorem addOrder_second_submission_noop_witness :
    addOrder (addOrder ⟨[]⟩ "order-1") "order-1" = addOrder ⟨[]⟩ "order-1"
    ∧ (runJobsCount failRouter 5 "order-1"
        (addOrder (addOrder ⟨[]⟩ "order-1") "order-1").jobs (some sampleOrder)).2 = 1 := by
  obtain ⟨h1, h2⟩ := addOrder_second_submission_noop ⟨[]⟩ "order-1" (by simp)
  exact ⟨h1, h2 failRouter (some sampleOrder) 5⟩

/-- C7: the quote fan-out is all-or-nothing. It resolves exactly when every
registered provider's quote call resolves; a successful aggregate carries
exactly one quote per registered provider, in provider order; and any single
provider's failure fails the aggregate call. -/
theorem getAllQuotes_all_or_nothing (fetch : String → Except String DexQuote) :
    (isOk (getAllQuotesWith fetch) = true ↔ ∀ p ∈ providers, isOk (fetch p) = true)
    ∧ (∀ qs, getAllQuotesWith fetch = .ok qs →
        ∃ qr qm, fetch "raydium" = .ok qr ∧ fetch "meteora" = .ok qm ∧ qs = [qr, qm])
    ∧ (∀ p e, p ∈ providers → fetch p = .error e →
        ∃ e2, getAllQuotesWith fetch = .error e2) := by
  rcases hr : fetch "raydium" with er | qr <;> rcases hm : fetch "meteora" with em | qm <;>
    simp [getAllQuotesWith, traverseQuotes, providers, hr, hm, isOk]
  intro p e hp
  rcases hp with rfl | rfl <;> simp [hr, hm]

/-- Witness for `getAllQuotes_all_or_nothing` at the mock fetch (which always
resolves): the aggregate resolves with one quote per provider. -/
theorem getAllQuotes_all_or_nothing_witness :
    isOk (getAllQuotesWith (mockFetch "SOL" "USDC" 1 0)) = true
    ∧ ∃ qr qm, mockFetch "SOL" "USDC" 1 0 "raydium" = .ok qr
        ∧ mockFetch "SOL" "USDC" 1 0 "meteora" = .ok qm
        ∧ [getQuote "raydium" "SOL" "USDC" 1 0, getQuote "meteora" "SOL" "USDC" 1 0] = [qr, qm] := by
  obtain ⟨-, hok, -⟩ := getAllQuotes_all_or_nothing (mockFetch "SOL" "USDC" 1 0)
  exact ⟨rfl,
    hok [getQuote "raydium" "SOL" "USDC" 1 0, getQuote "meteora" "SOL" "USDC" 1 0] rfl⟩

/-- Head of a descending insertion: the inserted element wins exactly when it
is at least as large as the previous head. -/
theorem head_orderedInsertDesc (q : EffectiveQuote) (l : List EffectiveQuote) :
    (orderedInsertDesc q l).head? =
      some (match l.head? with
        | none => q
        | some r => if r.amountOut ≤ q.amountOut then q else r) := by
  cases l with
  | nil => simp [orderedInsertDesc]
  | cons r rs =>
    by_cases h : r.amountOut ≤ q.amountOut <;>
      simp [orderedInsertDesc, h]

/-- Pushing a new initial best through the first-maximum scan. -/
theorem fmAux_step (xs : List EffectiveQuote) :
    ∀ q x : EffectiveQuote,
      fmAux (if q.amountOut < x.amountOut then x else q) xs
        = if (fmAux x xs).amountOut ≤ q.amountOut then q else fmAux x xs := by
  induction xs with
  | nil =>
    intro q x
    simp only [fmAux]
    split_ifs <;> first | rfl | (exfalso; linarith)
  | cons y ys ih =>
    intro q x
    simp only [fmAux]
    rw [ih (if q.amountOut < x.amountOut then x else q) y, ih x y]
    split_ifs <;> first | rfl | (exfalso; linarith)

/-- The head of the stable descending sort is the running first maximum of the
input. -/
theorem head_sortDesc (l : List EffectiveQuote) :
    ∀ q : EffectiveQuote, (sortByAmountOutDesc (q :: l)).head? = some (fmAux q l) := by
  induction l with
  | nil => intro q; simp [sortByAmountOutDesc, orderedInsertDesc, fmAux]
  | cons x xs ih =>
    intro q
    have hs := ih x
    cases hsort : sortByAmountOutDesc (x :: xs) with
    | nil => rw [hsort] at hs; simp at hs
    | cons b bs =>
      rw [hsort] at hs
      simp only [List.head?] at hs
      have hb : b = fmAux x xs := by injection hs
      show (sortByAmountOutDesc (q :: x :: xs)).head? = some (fmAux q (x :: xs))
      rw [show sortByAmountOutDesc (q :: x :: xs)
          = orderedInsertDesc q (sortByAmountOutDesc (x :: xs)) from rfl, hsort]
      rw [head_orderedInsertDesc]
      simp only [List.head?]
      rw [hb]
      show some (if (fmAux x xs).amountOut ≤ q.amountOut then q else fmAux x xs)
        = some (fmAux q (x :: xs))
      rw [show fmAux q (x :: xs)
          = fmAux (if q.amountOut < x.amountOut then x else q) xs from rfl]
      rw [fmAux_step]

/-- The first-maximum scan commutes with the `effectiveAmounts` projection. -/
theorem fmAux_map (t : List DexQuote) :
    ∀ q : DexQuote, fmAux (toEffective q) (t.map toEffective) = toEffective (fmQ q t) := by
  induction t with
  | nil => intro q; rfl
  | cons x xs ih =>
    intro q
    simp only [List.map, fmAux, fmQ]
    by_cases h : q.amountOut < x.amountOut <;> simp [toEffective, h]
    · exact ih x
    · exact ih q

/-- Two predicates that agree on a list's members find the same element. -/
theorem find?_congr_mem {α : Type} (l : List α) (p p2 : α → Bool)
    (h : ∀ a ∈ l, p a = p2 a) : l.find? p = l.find? p2 := by
  induction l with
  | nil => rfl
  | cons x xs ih =>
    have hx := h x (by simp)
    simp only [List.find?]
    rw [hx]
    cases p2 x with
    | true => rfl
    | false => exact ih fun a ha => h a (by simp [ha])

/-- The scan's result dominates its starting element. -/
theorem fmQ_base_le (t : List DexQuote) :
    ∀ q : DexQuote, q.amountOut ≤ (fmQ q t).amountOut := by
  induction t with
  | nil => intro q; simp [fmQ]
  | cons x xs ih =>
    intro q
    simp only [fmQ]
    by_cases h : q.amountOut < x.amountOut <;> simp only [h, if_pos, if_neg, ite_true, ite_false]
    · exact le_trans (le_of_lt h) (ih x)
    · exact ih q

/-- The scan's result dominates every element scanned. -/
theorem fmQ_max (t : List DexQuote) :
    ∀ q r : DexQuote, r ∈ q :: t → r.amountOut ≤ (fmQ q t).amountOut := by
  induction t with
  | nil =>
    intro q r hr
    simp at hr
    subst hr
    simp [fmQ]
  | cons x xs ih =>
    intro q r hr
    simp only [fmQ]
    rcases List.mem_cons.mp hr with rfl | hr2
    · by_cases h : r.amountOut < x.amountOut <;> simp only [h, ite_true, ite_false]
      · exact le_trans (le_of_lt h) (fmQ_base_le xs x)
      · exact fmQ_base_le xs r
    · rcases List.mem_cons.mp hr2 with rfl | hr3
      · by_cases h : q.amountOut < r.amountOut <;> simp only [h, ite_true, ite_false]
        · exact fmQ_base_le xs r
        · exact le_trans (le_of_not_lt h) (fmQ_base_le xs q)
      · exact ih _ r (List.mem_cons_of_mem _ hr3)

/-- The first-maximum scan computes exactly the first element whose
`amountOut` dominates the whole list. -/
theorem fmQ_eq_find? (t : List DexQuote) :
    ∀ q : DexQuote,
      (q :: t).find? (fun y => (q :: t).all fun r => decide (r.amountOut ≤ y.amountOut))
        = some (fmQ q t) := by
  induction t with
  | nil =>
    intro q
    rw [List.find?_cons_of_pos]
    · simp [fmQ]
    · simp
  | cons x xs ih =>
    intro q
    by_cases hqx : q.amountOut < x.amountOut
    · have hfm : fmQ q (x :: xs) = fmQ x xs := by
        simp [fmQ, hqx]
      have hPq : ((q :: x :: xs).all fun r => decide (r.amountOut ≤ q.amountOut)) = false := by
        simp [List.all_cons]
        intro h
        exact absurd h (not_le.mpr hqx)
      have hpp : ∀ y : DexQuote,
          ((q :: x :: xs).all fun r => decide (r.amountOut ≤ y.amountOut))
            = ((x :: xs).all fun r => decide (r.amountOut ≤ y.amountOut)) := by
        intro y
        cases hx1 : decide (x.amountOut ≤ y.amountOut) with
        | false => simp [List.all_cons, hx1]
        | true =>
          have hq1 : q.amountOut ≤ y.amountOut :=
            le_of_lt (lt_of_lt_of_le hqx (of_decide_eq_true hx1))
          simp [List.all_cons, hx1, hq1]
      rw [List.find?_cons_of_neg _ (by rw [hPq]; exact Bool.false_ne_true), hfm]
      rw [find?_congr_mem (x :: xs) _ _ (fun a _ => hpp a)]
      exact ih x
    · have hxq : x.amountOut ≤ q.amountOut := le_of_not_lt hqx
      have hfm : fmQ q (x :: xs) = fmQ q xs := by
        simp [fmQ, hqx]
      have hpp : ∀ y : DexQuote,
          ((q :: x :: xs).all fun r => decide (r.amountOut ≤ y.amountOut))
            = ((q :: xs).all fun r => decide (r.amountOut ≤ y.amountOut)) := by
        intro y
        cases hq1 : decide (q.amountOut ≤ y.amountOut) with
        | false => simp [List.all_cons, hq1]
        | true =>
          have hx1 : x.amountOut ≤ y.amountOut :=
            le_trans hxq (of_decide_eq_true hq1)
          simp [List.all_cons, hq1, hx1]
      have hIH := ih q
      cases hP2q : ((q :: xs).all fun r => decide (r.amountOut ≤ q.amountOut)) with
      | true =>
        have hl : (q :: x :: xs).find?
            (fun y => (q :: x :: xs).all fun r => decide (r.amountOut ≤ y.amountOut))
              = some q := by
          apply List.find?_cons_of_pos
          rw [hpp q, hP2q]
        have hr : fmQ q xs = q := by
          rw [List.find?_cons_of_pos _ (by rw [hP2q])] at hIH
          injection hIH with h
          exact h.symm
        rw [hl, hfm, hr]
      | false =>
        have hPq : ((q :: x :: xs).all fun r => decide (r.amountOut ≤ q.amountOut)) = false := by
          rw [hpp q, hP2q]
        have hPx : ((q :: x :: xs).all fun r => decide (r.amountOut ≤ x.amountOut)) = false := by
          cases hv : ((q :: x :: xs).all fun r => decide (r.amountOut ≤ x.amountOut)) with
          | false => rfl
          | true =>
            exfalso
            have hall := List.all_eq_true.mp hv
            have hq2 : q.amountOut ≤ x.amountOut :=
              of_decide_eq_true (hall q (by simp))
            have : ((q :: xs).all fun r => decide (r.amountOut ≤ q.amountOut)) = true := by
              apply List.all_eq_true.mpr
              intro r hr
              rcases List.mem_cons.mp hr with rfl | hr2
              · simp
              · exact decide_eq_true
                  (le_trans (of_decide_eq_true (hall r (by simp [hr2]))) hxq)
            rw [hP2q] at this
            exact Bool.false_ne_true this
        rw [List.find?_cons_of_neg _ (by rw [hPq]; exact Bool.false_ne_true),
          List.find?_cons_of_neg _ (by rw [hPx]; exact Bool.false_ne_true)]
        rw [List.find?_cons_of_neg _ (by rw [hP2q]; exact Bool.false_ne_true)] at hIH
        rw [hfm, ← hIH]
        exact find?_congr_mem xs _ _ (fun a _ => hpp a)

/-- C6: `selectBestDex` computes exactly the spec's description: on a
non-empty quote sequence it returns the provider of the first quote whose
`amountOut` is maximal (ties broken by input order, deterministically), and
on the empty sequence it fails with the no-quotes error; the first-maximal
quote exists iff the sequence is non-empty. -/
theorem selectBestDex_first_maximal (quotes : List DexQuote) :
    selectBestDex quotes =
      (match firstMaxQuote quotes with
       | some q => Except.ok q.provider
       | none => Except.error "No quotes available")
    ∧ (firstMaxQuote quotes = none ↔ quotes = []) := by
  cases quotes with
  | nil => exact ⟨rfl, by simp [firstMaxQuote]⟩
  | cons q t =>
    have hfm : firstMaxQuote (q :: t) = some (fmQ q t) := fmQ_eq_find? t q
    constructor
    · rw [hfm]
      have hhead := head_sortDesc (t.map toEffective) (toEffective q)
      rw [fmAux_map] at hhead
      rw [show selectBestDex (q :: t)
          = (match sortByAmountOutDesc (toEffective q :: t.map toEffective) with
             | [] => Except.error "No quotes available"
             | best :: _ => Except.ok best.provider) from rfl]
      cases hsort : sortByAmountOutDesc (toEffective q :: t.map toEffective) with
      | nil => rw [hsort] at hhead; simp at hhead
      | cons b bs =>
        rw [hsort] at hhead
        simp only [List.head?] at hhead
        have hb : b = toEffective (fmQ q t) := by injection hhead
        rw [hb]
        rfl
    · rw [hfm]
      simp

end MarketOrderEngine
